import Mathlib

/-!
# Verification of the docker-vxrouter IPAM driver and network-resource cache

A shallow embedding of the repository's three source files:

* `vxrIpam/driver.go` — the IPAM driver (`RequestPool`, `RequestAddress`,
  `ReleasePool`, `ReleaseAddress`);
* `docker/client/client.go` — the dual-keyed network-resource cache
  (`GetNetworkResourceByID`, `cacheNetworkResource`, `poolFromNR`).

Addresses are modelled as IPv4: an address is a `Nat` below `2 ^ 32`, a mask
is a CIDR mask given by its prefix length (`ones`) out of `bits` total bits —
the only masks this code ever constructs.  The Go standard-library helpers the
code calls (`net.ParseIP`, `net.ParseCIDR`, `(*net.IPNet).String`) are
translated for the IPv4 dotted-quad forms the driver exchanges with the
container runtime, including `String`'s rendering of a nil IP as `"<nil>"`.

External collaborators (the netlink routing-table interface and the `vxrNet`
network driver) enter as explicit parameters: the routing table is a list of
routes queried by exact destination match, and the `vxrNet` calls
(`GetNetworkResourceBySubnet`, `ConnectHost`, `GetGatewayBySubnet`,
`netlink.RouteAdd`) are oracles whose responses are fields of an `Env`
record, so every theorem quantifies over all possible collaborator behavior.
-/

deriving instance DecidableEq for Except

namespace VxRouter

/-- A Go `net.IPMask` restricted to CIDR masks (the only kind this code
builds): `ones` prefix bits out of `bits` total.  `Mask.Size()` returns the
pair `(ones, bits)`. -/
structure Mask where
  ones : Nat
  bits : Nat
  deriving DecidableEq, Repr

/-- A Go `net.IPNet`: an IP (possibly nil, as `net.ParseIP` returns on bad
input) plus a mask. -/
structure IPNet where
  ip : Option Nat
  mask : Mask
  deriving DecidableEq, Repr

/-- Value of a decimal digit string, most significant first. -/
def digitsVal (l : List Char) : Nat :=
  l.foldl (fun a c => a * 10 + (c.toNat - 48)) 0

/-- Split a character list at every separator (the semantics of Go's
`strings.Split` and of `String.split`, written so it reduces by `decide`):
`acc` holds the current field reversed. -/
def splitSepAux (sep : Char) : List Char → List Char → List (List Char)
  | [], acc => [acc.reverse]
  | c :: rest, acc =>
    if c = sep then acc.reverse :: splitSepAux sep rest []
    else splitSepAux sep rest (c :: acc)

/-- The fields of `l` between occurrences of `sep`. -/
def splitSep (sep : Char) (l : List Char) : List (List Char) :=
  splitSepAux sep l []

/-- One dotted-quad field: one to three decimal digits, value at most 255. -/
def parseByte (l : List Char) : Option Nat :=
  if l.length = 0 ∨ 3 < l.length ∨ ¬ l.all Char.isDigit then none
  else if digitsVal l ≤ 255 then some (digitsVal l) else none

/-- Go `net.ParseIP` for IPv4 dotted-quad strings: four fields separated by
dots; `none` models the nil `net.IP` returned for anything else. -/
def parseIP (s : String) : Option Nat :=
  match (splitSep '.' s.data).map parseByte with
  | [some a, some b, some c, some d] => some (((a * 256 + b) * 256 + c) * 256 + d)
  | _ => none

/-- A CIDR prefix length: decimal digits, at most `bits`. -/
def parseMaskLen (l : List Char) (bits : Nat) : Option Nat :=
  if l.length = 0 ∨ 3 < l.length ∨ ¬ l.all Char.isDigit then none
  else if digitsVal l ≤ bits then some (digitsVal l) else none

/-- Clear the host bits of `ip` under a `len`-bit prefix (Go `IP.Mask`). -/
def maskNetwork (ip len : Nat) : Nat :=
  ip / 2 ^ (32 - len) * 2 ^ (32 - len)

/-- Go `net.ParseCIDR` (IPv4), returning the `*net.IPNet` component: the
network address (host bits cleared) and the CIDR mask.  `none` models the
non-nil error for malformed input. -/
def parseCIDR (s : String) : Option IPNet :=
  match splitSep '/' s.data with
  | [ipS, lenS] =>
    match parseIP ⟨ipS⟩, parseMaskLen lenS 32 with
    | some ip, some len => some ⟨some (maskNetwork ip len), ⟨len, 32⟩⟩
    | _, _ => none
  | _ => none

/-- Byte `i` (0 = least significant) of an address. -/
def octet (n i : Nat) : Nat := n / 2 ^ (8 * i) % 256

/-- Dotted-quad rendering of an IPv4 address. -/
def ipToString (n : Nat) : String :=
  toString (octet n 3) ++ "." ++ toString (octet n 2) ++ "." ++
    toString (octet n 1) ++ "." ++ toString (octet n 0)

/-- Go `(*net.IPNet).String()`: `"<nil>"` when the IP is nil, otherwise the
IP unchanged followed by the mask's prefix length. -/
def ipNetString (a : IPNet) : String :=
  match a.ip with
  | none => "<nil>"
  | some n => ipToString n ++ "/" ++ toString a.mask.ones

/-- Shorthand for the address `a.b.c.d`. -/
def ipOf (a b c d : Nat) : Nat := ((a * 256 + b) * 256 + c) * 256 + d

/-- A netlink route as this code uses it: a destination `*net.IPNet` and a
gateway IP (`netlink.Route.Dst` / `.Gw`). -/
structure Route where
  dst : Option IPNet
  gw : Option Nat
  deriving DecidableEq, Repr

/-- `netlink.RouteListFiltered(0, &netlink.Route{Dst: addr}, RT_FILTER_DST)`:
the routes of the host table whose destination equals `dst` exactly. -/
def routeListFiltered (table : List Route) (dst : IPNet) : List Route :=
  table.filter (fun rt => decide (rt.dst = some dst))

/-! ## The network-resource cache (`docker/client/client.go`) -/

/-- One entry of a runtime network's IPAM configuration
(`types.NetworkResource.IPAM.Config` element): an optional subnet string. -/
structure IPAMConfig where
  subnet : String
  deriving DecidableEq, Repr

/-- The IPAM section of a runtime network resource. -/
structure IPAM where
  config : List IPAMConfig
  deriving DecidableEq, Repr

/-- A runtime network resource, restricted to the fields this code reads:
its identifier and its IPAM configuration. -/
structure NetworkResource where
  id : String
  ipam : IPAM
  deriving DecidableEq, Repr

/-- `poolFromNR`'s loop over `nr.IPAM.Config`: the subnet of the first entry
whose subnet field is non-empty, or the error `"pool not found"`. -/
def poolFromConfigs : List IPAMConfig → Except String String
  | [] => Except.error "pool not found"
  | c :: rest => if c.subnet ≠ "" then Except.ok c.subnet else poolFromConfigs rest

/-- `poolFromNR(nr)`: derive the pool (subnet string) of a network resource. -/
def poolFromNR (nr : NetworkResource) : Except String String :=
  poolFromConfigs nr.ipam.config

/-- A `*types.NetworkResource` pointer: `ptr` models the Go pointer identity
(two records are pointer-equal exactly when they are the same `NRRec`), `nr`
the record pointed at. -/
structure NRRec where
  ptr : Nat
  nr : NetworkResource
  deriving DecidableEq, Repr

/-- The two indexes of the client's cache, `nrByID` and `nrByPool`.  A Go map
is an association list where an assignment conses at the front and lookup
takes the newest binding. -/
structure CacheState where
  nrByID : List (String × NRRec)
  nrByPool : List (String × NRRec)
  deriving DecidableEq, Repr

/-- The cache of a freshly constructed client (`NewClient`). -/
def emptyCache : CacheState := ⟨[], []⟩

/-- Go map lookup `m[k]`: the newest binding of `k`. -/
def mapFind (m : List (String × NRRec)) (k : String) : Option NRRec :=
  (m.find? (fun e => decide (e.fst = k))).map Prod.snd

/-- `cacheNetworkResource(nr)`: under the exclusive lock, derive the pool;
on derivation failure cache nothing, otherwise assign the same pointer into
both indexes (`nrByID[nr.ID]` and `nrByPool[pool]`). -/
def cacheNetworkResource (s : CacheState) (rec : NRRec) : CacheState :=
  match poolFromNR rec.nr with
  | Except.error _ => s
  | Except.ok pool => ⟨(rec.nr.id, rec) :: s.nrByID, (pool, rec) :: s.nrByPool⟩

/-- The outcome of the one `dc.NetworkInspect` call a cache miss performs:
an oracle for the runtime's answer. -/
inductive InspectResult where
  | ok (rec : NRRec)
  | err (e : String)
  deriving DecidableEq, Repr

/-- `GetNetworkResourceByID(id)`: return the cached record on a hit; on a
miss, inspect `id` — on inspect failure return the error with the cache
untouched, on success cache the fetched record and return it. -/
def getNetworkResourceByID (s : CacheState) (id : String) (inspect : InspectResult) :
    CacheState × Except String NRRec :=
  match mapFind s.nrByID id with
  | some rec => (s, Except.ok rec)
  | none =>
    match inspect with
    | InspectResult.err e => (s, Except.error e)
    | InspectResult.ok rec => (cacheNetworkResource s rec, Except.ok rec)

/-- Apply a sequence of `cacheNetworkResource` insertions (the only operation
that ever writes either index) to the fresh client's cache. -/
def runCache (ops : List NRRec) : CacheState :=
  ops.foldl cacheNetworkResource emptyCache

/-- The spec's cache invariant, stated of a cache state: every record
reachable via the ID index is reachable via the Pool index under its derived
subnet key, and the two entries are the identical record (`NRRec` equality
includes the modelled pointer). -/
def derivedKeyInv (s : CacheState) : Prop :=
  ∀ id rec, mapFind s.nrByID id = some rec →
    ∃ pool, poolFromNR rec.nr = Except.ok pool ∧ mapFind s.nrByPool pool = some rec

/-! ## The IPAM driver (`vxrIpam/driver.go`) -/

/-- An observable side call of `RequestAddress`, in the order performed: a
routing-table query, the `vxrNet` collaborator calls, a route installation. -/
inductive Effect where
  | routeList (dst : IPNet)
  | getNR (pool : String)
  | connectHost (id : String)
  | getGateway (pool : String)
  | routeAdd (dst : IPNet) (gw : Option Nat)
  deriving DecidableEq, Repr

/-- `ipam.RequestAddressRequest`: the pool identifier, the optional explicit
address (empty string when absent) and the string-keyed options map. -/
structure RequestAddressRequest where
  poolID : String
  address : String
  options : List (String × String)
  deriving DecidableEq, Repr

/-- Go map indexing `m[k]` on a `map[string]string`: the zero value `""`
when the key is absent. -/
def mapGet (m : List (String × String)) (k : String) : String :=
  ((m.find? (fun e => decide (e.fst = k))).map Prod.snd).getD ""

/-- The external collaborators of one `RequestAddress` call: the host routing
table, the stream of `iputil.RandAddr` draws, and the responses of the
`vxrNet` driver and of `netlink.RouteAdd`.  Modelling them as oracle fields
quantifies every theorem over all collaborator behavior. -/
structure Env where
  routeTable : List Route
  rand : Nat → Nat
  nrBySubnet : Option NetworkResource × Option String
  connectHostErr : Option String
  gatewayRes : Except String IPNet
  routeAddErr : Option String

/-- How one `RequestAddress` call ends: a response, an error return, a
runtime panic (nil-pointer dereference), or no exit at all within the given
iteration budget (the candidate loop is unbounded in the source). -/
inductive Outcome where
  | returned (address : String)
  | failed (e : String)
  | panicked
  | diverges
  deriving DecidableEq, Repr

/-- The candidate loop of `RequestAddress` (`for len(routes) > 0 { ... }`):
each iteration draws a random address only when the candidate is nil, then
lists the routes whose destination is exactly the candidate under the host
mask; the loop exits holding the candidate when no route matches.  The
source never sets the candidate back to nil inside the loop, so a taken
candidate is carried into the next iteration unchanged — the translation
keeps that behavior (`some ip` in the recursive call).  `fuel` bounds the
iterations; the first component is `none` when the budget runs out, and the
second lists the queries made. -/
def candidateLoop (table : List Route) (rand : Nat → Nat) (hostMask : Mask) :
    Nat → Option Nat → Nat → Option Nat × List Effect
  | 0, _, _ => (none, [])
  | Nat.succ fuel, cand, i =>
    let ip := match cand with
      | none => rand i
      | some v => v
    let i2 := match cand with
      | none => i + 1
      | some _ => i
    let dst : IPNet := ⟨some ip, hostMask⟩
    let found := routeListFiltered table dst
    if found.length = 0 then
      (some ip, [Effect.routeList dst])
    else
      let next := candidateLoop table rand hostMask fuel (some ip) i2
      (next.fst, Effect.routeList dst :: next.snd)

/-- `RequestAddress`, line for line: parse the pool (the source logs a parse
error without returning, so a malformed pool reaches `subnet.Mask` on a nil
pointer: `panicked`); build the address from `ParseIP(r.Address)` and the
pool mask; answer a gateway-flagged request immediately; otherwise run the
candidate loop under the full-length host mask, resolve the network by
subnet, connect the host, resolve the gateway, install the host route, and
return the candidate under the pool mask. -/
def requestAddress (env : Env) (fuel : Nat) (r : RequestAddressRequest) :
    Outcome × List Effect :=
  match parseCIDR r.poolID with
  | none => (Outcome.panicked, [])
  | some subnet =>
    let ipIn := parseIP r.address
    if mapGet r.options "RequestAddressType" = "com.docker.network.gateway" then
      (Outcome.returned (ipNetString ⟨ipIn, subnet.mask⟩), [])
    else
      let ml := subnet.mask.bits
      let hostMask : Mask := ⟨ml, ml⟩
      match candidateLoop env.routeTable env.rand hostMask fuel ipIn 0 with
      | (none, tr) => (Outcome.diverges, tr)
      | (some ip, tr) =>
        let tr2 := tr ++ [Effect.getNR r.poolID]
        match env.nrBySubnet with
        | (none, some e) => (Outcome.failed e, tr2)
        | (none, none) => (Outcome.failed "failed to get network from pool", tr2)
        | (some nr, _) =>
          let tr3 := tr2 ++ [Effect.connectHost nr.id]
          match env.connectHostErr with
          | some e => (Outcome.failed e, tr3)
          | none =>
            let tr4 := tr3 ++ [Effect.getGateway r.poolID]
            match env.gatewayRes with
            | Except.error e => (Outcome.failed e, tr4)
            | Except.ok gw =>
              let tr5 := tr4 ++ [Effect.routeAdd ⟨some ip, hostMask⟩ gw.ip]
              match env.routeAddErr with
              | some e => (Outcome.failed e, tr5)
              | none => (Outcome.returned (ipNetString ⟨some ip, subnet.mask⟩), tr5)

/-- `ipam.RequestPoolRequest`, restricted to the fields the driver touches
(it reads only `Pool`). -/
structure RequestPoolRequest where
  addressSpace : String
  pool : String
  subPool : String
  v6 : Bool
  deriving DecidableEq, Repr

/-- `ipam.RequestPoolResponse`. -/
structure RequestPoolResponse where
  poolID : String
  pool : String
  deriving DecidableEq, Repr

/-- Everything stateful a driver call could touch: the host routing table
and the network-resource cache. -/
structure WorldState where
  routeTable : List Route
  cache : CacheState
  deriving DecidableEq, Repr

/-- `RequestPool`: echo the requested pool as both `PoolID` and `Pool`, with
no error; the state is passed through untouched. -/
def requestPool (w : WorldState) (r : RequestPoolRequest) :
    WorldState × RequestPoolResponse × Option String :=
  (w, ⟨r.pool, r.pool⟩, none)

/-- `ReleasePool`: log and return nil. -/
def releasePool (w : WorldState) (_poolID : String) : WorldState × Option String :=
  (w, none)

/-- `ReleaseAddress`: log and return nil. -/
def releaseAddress (w : WorldState) (_poolID _address : String) :
    WorldState × Option String :=
  (w, none)

/-! ## Concrete fixtures used by counterexamples and witnesses -/

/-- A network resource owning the pool `10.0.0.0/24`. -/
def nrA : NetworkResource := ⟨"netA", ⟨[⟨"10.0.0.0/24"⟩]⟩⟩

/-- The resolved gateway `10.0.0.1/24`. -/
def gwA : IPNet := ⟨some (ipOf 10 0 0 1), ⟨24, 32⟩⟩

/-- A single-host route to `10.0.0.5/32`, the one taken address. -/
def routeTo5 : Route := ⟨some ⟨some (ipOf 10 0 0 5), ⟨32, 32⟩⟩, some (ipOf 10 0 0 1)⟩

/-- An environment whose routing table holds exactly `routeTo5`, whose
random draws all yield the free address `10.0.0.9`, and whose collaborators
all succeed. -/
def envA : Env :=
  ⟨[routeTo5], fun _ => ipOf 10 0 0 9, (some nrA, none), none, Except.ok gwA, none⟩

/-- A pointer to `nrA`. -/
def recA1 : NRRec := ⟨1, nrA⟩

/-- A second, distinct network resource whose IPAM configuration derives the
same subnet `10.0.0.0/24` as `nrA`. -/
def nrB : NetworkResource := ⟨"netB", ⟨[⟨"10.0.0.0/24"⟩]⟩⟩

/-- A pointer to `nrB`. -/
def recB2 : NRRec := ⟨2, nrB⟩

/-- A network resource with no IPAM configuration entries at all: its pool
derivation fails. -/
def nrNoCfg : NetworkResource := ⟨"netC", ⟨[]⟩⟩

/-- A pointer to `nrNoCfg`. -/
def recC3 : NRRec := ⟨3, nrNoCfg⟩

/-- A gateway-flagged address request carrying the explicit address
`10.0.0.7` in pool `10.0.0.0/24`. -/
def gwReq : RequestAddressRequest :=
  ⟨"10.0.0.0/24", "10.0.0.7", [("RequestAddressType", "com.docker.network.gateway")]⟩

/-- A gateway-flagged address request with an empty explicit address. -/
def gwNilReq : RequestAddressRequest :=
  ⟨"10.0.0.0/24", "", [("RequestAddressType", "com.docker.network.gateway")]⟩

/-- A non-gateway request for pool `10.0.0.0/24` with no explicit address. -/
def autoReq : RequestAddressRequest := ⟨"10.0.0.0/24", "", []⟩

/-- A non-gateway request asking explicitly for the taken address
`10.0.0.5`. -/
def takenReq : RequestAddressRequest := ⟨"10.0.0.0/24", "10.0.0.5", []⟩

/-- No two records of the list derive the same subnet key unless they are
the identical record. -/
def noSharedPool (ops : List NRRec) : Prop :=
  ∀ r1 ∈ ops, ∀ r2 ∈ ops, ∀ p, poolFromNR r1.nr = Except.ok p →
    poolFromNR r2.nr = Except.ok p → r1 = r2

/-- Well-formedness of a cache state relative to a universe `U` of records:
both indexes hold only `U`-records, every Pool entry sits under its derived
key, and the spec's dual-index invariant holds. -/
def cacheWF (U : NRRec → Prop) (s : CacheState) : Prop :=
  (∀ id rec, mapFind s.nrByID id = some rec → U rec) ∧
  (∀ p rec, mapFind s.nrByPool p = some rec →
    U rec ∧ poolFromNR rec.nr = Except.ok p) ∧
  derivedKeyInv s

end VxRouter

namespace VxRouter

/-! ## Cache lemmas -/

/-- Assigning into a Go map shadows the older binding: lookup after an
assignment returns the new value on the assigned key and the old map's
answer elsewhere. -/
theorem mapFind_cons (k : String) (v : NRRec) (m : List (String × NRRec))
    (k2 : String) :
    mapFind ((k, v) :: m) k2 = if k = k2 then some v else mapFind m k2 := by
  by_cases h : k = k2
  · subst h
    rw [if_pos rfl]
    unfold mapFind
    rw [List.find?_cons_of_pos _ (by simp)]
    rfl
  · rw [if_neg h]
    unfold mapFind
    rw [List.find?_cons_of_neg _ (by simpa using h)]

/-- `poolFromConfigs` succeeds with `p` exactly when the list decomposes as
all-empty entries, then an entry with the non-empty subnet `p`. -/
theorem poolFromConfigs_ok_iff (l : List IPAMConfig) (p : String) :
    poolFromConfigs l = Except.ok p ↔
      ∃ pre c post, l = pre ++ c :: post ∧ (∀ c2 ∈ pre, c2.subnet = "") ∧
        c.subnet ≠ "" ∧ c.subnet = p := by
  induction l with
  | nil =>
    simp only [poolFromConfigs]
    constructor
    · intro h; exact absurd h (by simp)
    · rintro ⟨pre, c, post, h, -⟩
      exact absurd h (by simp)
  | cons c l ih =>
    by_cases hc : c.subnet = ""
    · rw [show poolFromConfigs (c :: l) = poolFromConfigs l from by
        simp [poolFromConfigs, hc]]
      rw [ih]
      constructor
      · rintro ⟨pre, c2, post, hl, hpre, hne, hp⟩
        refine ⟨c :: pre, c2, post, by rw [hl, List.cons_append], ?_, hne, hp⟩
        intro d hd
        rcases List.mem_cons.mp hd with h | h
        · rw [h]; exact hc
        · exact hpre d h
      · rintro ⟨pre, c2, post, hl, hpre, hne, hp⟩
        cases pre with
        | nil =>
          simp only [List.nil_append, List.cons.injEq] at hl
          exact absurd (hl.1 ▸ hc) hne
        | cons d pre2 =>
          simp only [List.cons_append, List.cons.injEq] at hl
          exact ⟨pre2, c2, post, hl.2, fun e he => hpre e (List.mem_cons_of_mem d he),
            hne, hp⟩
    · rw [show poolFromConfigs (c :: l) = Except.ok c.subnet from by
        simp [poolFromConfigs, hc]]
      constructor
      · intro h
        exact ⟨[], c, l, rfl, by simp, hc, by injection h⟩
      · rintro ⟨pre, c2, post, hl, hpre, hne, hp⟩
        cases pre with
        | nil =>
          simp only [List.nil_append, List.cons.injEq] at hl
          rw [← hp, hl.1]
        | cons d pre2 =>
          simp only [List.cons_append, List.cons.injEq] at hl
          exact absurd (hl.1 ▸ hpre d (List.mem_cons_self d pre2)) hc

/-- `poolFromConfigs` fails exactly when every entry's subnet is empty. -/
theorem poolFromConfigs_error_iff (l : List IPAMConfig) :
    (∃ e, poolFromConfigs l = Except.error e) ↔ ∀ c ∈ l, c.subnet = "" := by
  induction l with
  | nil => simp [poolFromConfigs]
  | cons c l ih =>
    by_cases hc : c.subnet = "" <;> simp [poolFromConfigs, hc, ih]

/-- Claim C7: deriving a pool from a NetworkResource returns the subnet of
the first IPAM configuration entry with a non-empty subnet field — earlier
empty-subnet entries and all later entries are ignored — and fails with the
pool-derivation error exactly when no entry has a non-empty subnet. -/
theorem poolFromNR_first_nonempty_subnet (nr : NetworkResource) :
    (∀ p, poolFromNR nr = Except.ok p ↔
      ∃ pre c post, nr.ipam.config = pre ++ c :: post ∧
        (∀ c2 ∈ pre, c2.subnet = "") ∧ c.subnet ≠ "" ∧ c.subnet = p) ∧
    ((∃ e, poolFromNR nr = Except.error e) ↔
      ∀ c ∈ nr.ipam.config, c.subnet = "") :=
  ⟨fun p => poolFromConfigs_ok_iff nr.ipam.config p,
    poolFromConfigs_error_iff nr.ipam.config⟩

/-- Claim C3 counterexample: a cache-miss lookup whose inspect call succeeds
with a resource lacking a derivable pool returns the resource but inserts it
into neither index — the cache state is still empty afterwards, so the
fetched record is not "inserted into both the ID index and the Pool index"
as claimed. -/
theorem getByID_inspect_ok_uncached_cex :
    (getNetworkResourceByID emptyCache "netC" (InspectResult.ok recC3)).snd =
        Except.ok recC3 ∧
      (getNetworkResourceByID emptyCache "netC" (InspectResult.ok recC3)).fst =
        emptyCache := by decide

/-- Claim C3 (amended): on a cache miss by ID, an inspect failure is
returned with both indexes untouched; an inspect success is inserted into
both the ID index and the Pool index before being returned provided its pool
derivation succeeds, and is returned without touching either index when pool
derivation fails. -/
theorem getByID_miss_caches_iff_pool_derivable (s : CacheState) (id : String)
    (ins : InspectResult) (hmiss : mapFind s.nrByID id = none) :
    (∀ e, ins = InspectResult.err e →
      getNetworkResourceByID s id ins = (s, Except.error e)) ∧
    (∀ rec e, ins = InspectResult.ok rec → poolFromNR rec.nr = Except.error e →
      getNetworkResourceByID s id ins = (s, Except.ok rec)) ∧
    (∀ rec pool, ins = InspectResult.ok rec → poolFromNR rec.nr = Except.ok pool →
      (getNetworkResourceByID s id ins).snd = Except.ok rec ∧
      mapFind (getNetworkResourceByID s id ins).fst.nrByID rec.nr.id = some rec ∧
      mapFind (getNetworkResourceByID s id ins).fst.nrByPool pool = some rec) := by
  refine ⟨?_, ?_, ?_⟩
  · intro e he
    subst he
    simp only [getNetworkResourceByID, hmiss]
  · intro rec e he hp
    subst he
    simp only [getNetworkResourceByID, hmiss, cacheNetworkResource, hp]
  · intro rec pool he hp
    subst he
    simp only [getNetworkResourceByID, hmiss, cacheNetworkResource, hp]
    refine ⟨by trivial, ?_, ?_⟩ <;> rw [mapFind_cons, if_pos rfl]

/-- Claim C3 witness: a concrete miss with a derivable pool lands in both
indexes. -/
theorem getByID_miss_caches_witness :
    (getNetworkResourceByID emptyCache "netA" (InspectResult.ok recA1)).snd =
        Except.ok recA1 ∧
      mapFind (getNetworkResourceByID emptyCache "netA"
          (InspectResult.ok recA1)).fst.nrByID recA1.nr.id = some recA1 ∧
      mapFind (getNetworkResourceByID emptyCache "netA"
          (InspectResult.ok recA1)).fst.nrByPool "10.0.0.0/24" = some recA1 :=
  (getByID_miss_caches_iff_pool_derivable emptyCache "netA"
    (InspectResult.ok recA1) (by decide)).2.2 recA1 "10.0.0.0/24" rfl (by decide)

/-- Claim C4 counterexample: caching two distinct records whose IPAM
configurations derive the same subnet key leaves the first record reachable
via the ID index while the Pool index entry under its derived key is the
second record — the claimed invariant fails after this two-operation
sequence. -/
theorem derivedKeyInv_shared_pool_cex :
    ¬ derivedKeyInv (runCache [recA1, recB2]) := by
  intro h
  obtain ⟨p, hp, hl⟩ := h "netA" recA1 (by decide)
  have h2 : poolFromNR recA1.nr = Except.ok "10.0.0.0/24" := by decide
  rw [h2] at hp
  injection hp with hps
  rw [← hps] at hl
  exact absurd hl (by decide)

/-- One `cacheNetworkResource` call preserves well-formedness, given that no
record of the universe shares its derived subnet key with a differing
record of the universe. -/
theorem cacheWF_step (U : NRRec → Prop)
    (hU : ∀ r1 r2, U r1 → U r2 → ∀ p, poolFromNR r1.nr = Except.ok p →
      poolFromNR r2.nr = Except.ok p → r1 = r2)
    (s : CacheState) (hs : cacheWF U s) (rec : NRRec) (hrec : U rec) :
    cacheWF U (cacheNetworkResource s rec) := by
  obtain ⟨hID, hPool, hInv⟩ := hs
  cases hp : poolFromNR rec.nr with
  | error e =>
    simp only [cacheNetworkResource, hp]
    exact ⟨hID, hPool, hInv⟩
  | ok pool =>
    simp only [cacheNetworkResource, hp]
    refine ⟨?_, ?_, ?_⟩
    · intro id rec2 h
      rw [mapFind_cons] at h
      split at h
      · injection h with h2; rw [← h2]; exact hrec
      · exact hID id rec2 h
    · intro q rec2 h
      rw [mapFind_cons] at h
      split at h
      next hq =>
        injection h with h2
        rw [← h2]
        exact ⟨hrec, hq ▸ hp⟩
      next hq => exact hPool q rec2 h
    · intro id rec2 h
      rw [mapFind_cons] at h
      split at h
      next hid =>
        injection h with h2
        refine ⟨pool, h2 ▸ hp, ?_⟩
        rw [mapFind_cons, if_pos rfl, h2]
      next hid =>
        obtain ⟨q, hq, hlq⟩ := hInv id rec2 h
        refine ⟨q, hq, ?_⟩
        rw [mapFind_cons]
        by_cases hpq : pool = q
        · have hr2 : rec2 = rec :=
            hU rec2 rec (hID id rec2 h) hrec q hq (hpq ▸ hp)
          rw [if_pos hpq, hr2]
        · rw [if_neg hpq]; exact hlq

/-- Folding any batch of universe records over a well-formed cache keeps it
well-formed. -/
theorem cacheWF_foldl (U : NRRec → Prop)
    (hU : ∀ r1 r2, U r1 → U r2 → ∀ p, poolFromNR r1.nr = Except.ok p →
      poolFromNR r2.nr = Except.ok p → r1 = r2) :
    ∀ (ops : List NRRec) (s : CacheState), cacheWF U s → (∀ r ∈ ops, U r) →
      cacheWF U (ops.foldl cacheNetworkResource s) := by
  intro ops
  induction ops with
  | nil => intro s hs _; simpa using hs
  | cons r ops ih =>
    intro s hs hops
    rw [List.foldl_cons]
    exact ih (cacheNetworkResource s r)
      (cacheWF_step U hU s hs r (hops r (List.mem_cons_self r ops)))
      (fun r2 h2 => hops r2 (List.mem_cons_of_mem r h2))

/-- Claim C4 (amended): after any sequence of cache insertions in which no
two differing records derive the same subnet key, every record reachable via
the ID index is also reachable via the Pool index under its derived subnet
key, and both entries are the identical record. -/
theorem derivedKeyInv_of_noSharedPool (ops : List NRRec) (h : noSharedPool ops) :
    derivedKeyInv (runCache ops) := by
  have hempty : cacheWF (· ∈ ops) emptyCache := by
    refine ⟨?_, ?_, ?_⟩
    · intro id rec hfind
      simp [mapFind, emptyCache] at hfind
    · intro p rec hfind
      simp [mapFind, emptyCache] at hfind
    · intro id rec hfind
      simp [mapFind, emptyCache] at hfind
  exact (cacheWF_foldl (· ∈ ops)
    (fun r1 r2 h1 h2 p hp1 hp2 => h r1 h1 r2 h2 p hp1 hp2)
    ops emptyCache hempty (fun r hr => hr)).2.2

/-- Claim C4 witness: with the single-record sequence `[recA1]` the
invariant produces the Pool-index entry for `recA1` under its derived key. -/
theorem derivedKeyInv_of_noSharedPool_witness :
    ∃ pool, poolFromNR recA1.nr = Except.ok pool ∧
      mapFind (runCache [recA1]).nrByPool pool = some recA1 :=
  derivedKeyInv_of_noSharedPool [recA1]
    (by
      intro r1 h1 r2 h2 p hp1 hp2
      rw [List.mem_singleton.mp h1, List.mem_singleton.mp h2])
    "netA" recA1 (by decide)

/-! ## Allocator lemmas -/

/-- A candidate the routing table already matches is never cleared: the
source's loop re-queries the very same destination every iteration, so under
any fuel the loop ends with no address and a trace of identical queries. -/
theorem candidateLoop_taken (table : List Route) (rand : Nat → Nat)
    (hostMask : Mask) (ip : Nat)
    (h : routeListFiltered table ⟨some ip, hostMask⟩ ≠ []) :
    ∀ (fuel i : Nat),
      candidateLoop table rand hostMask fuel (some ip) i =
        (none, List.replicate fuel (Effect.routeList ⟨some ip, hostMask⟩)) := by
  intro fuel
  induction fuel with
  | zero => intro i; rfl
  | succ fuel ih =>
    intro i
    have hlen : ¬ (routeListFiltered table ⟨some ip, hostMask⟩).length = 0 :=
      fun hlen => h (List.length_eq_zero.mp hlen)
    simp only [candidateLoop]
    rw [if_neg hlen, ih i, List.replicate_succ]

/-- Whatever candidate the loop exits with had no matching route at the
query that released it. -/
theorem candidateLoop_result_free (table : List Route) (rand : Nat → Nat)
    (hostMask : Mask) :
    ∀ (fuel : Nat) (cand : Option Nat) (i ip : Nat),
      (candidateLoop table rand hostMask fuel cand i).fst = some ip →
      routeListFiltered table ⟨some ip, hostMask⟩ = [] := by
  intro fuel
  induction fuel with
  | zero =>
    intro cand i ip h
    exact absurd h (by simp [candidateLoop])
  | succ fuel ih =>
    intro cand i ip h
    rcases cand with - | v <;>
      · simp only [candidateLoop] at h
        split at h
        next hlen =>
          injection h with h2
          rw [← h2]
          exact List.length_eq_zero.mp hlen
        next => exact ih _ _ _ h

/-- A non-gateway request with a parseable explicit address that is already
routed never exits the candidate loop: `RequestAddress` diverges under every
iteration budget, issuing the same routing-table query over and over. -/
theorem requestAddress_explicit_taken_diverges (env : Env)
    (r : RequestAddressRequest) (subnet : IPNet) (ip : Nat)
    (hpool : parseCIDR r.poolID = some subnet)
    (hgw : mapGet r.options "RequestAddressType" ≠ "com.docker.network.gateway")
    (hip : parseIP r.address = some ip)
    (h : routeListFiltered env.routeTable
      ⟨some ip, ⟨subnet.mask.bits, subnet.mask.bits⟩⟩ ≠ []) :
    ∀ fuel : Nat,
      requestAddress env fuel r =
        (Outcome.diverges, List.replicate fuel
          (Effect.routeList ⟨some ip, ⟨subnet.mask.bits, subnet.mask.bits⟩⟩)) := by
  intro fuel
  simp only [requestAddress, hpool, hip]
  rw [if_neg hgw]
  rw [candidateLoop_taken env.routeTable env.rand
    ⟨subnet.mask.bits, subnet.mask.bits⟩ ip h fuel 0]

/-- Claim C1 (what the code does at the failing input): a request asking
explicitly for `10.0.0.5` while a single-host route to `10.0.0.5/32` exists
never draws a fresh random address — under every iteration budget the call
fails to terminate, each iteration re-querying the routing table for the
same taken candidate `10.0.0.5/32`. -/
theorem requestAddress_taken_explicit_loops_forever :
    ∀ fuel : Nat,
      requestAddress envA fuel takenReq =
        (Outcome.diverges, List.replicate fuel
          (Effect.routeList ⟨some (ipOf 10 0 0 5), ⟨32, 32⟩⟩)) :=
  fun fuel => requestAddress_explicit_taken_diverges envA takenReq
    ⟨some (ipOf 10 0 0 0), ⟨24, 32⟩⟩ (ipOf 10 0 0 5)
    (by decide) (by decide) (by decide) (by decide) fuel

/-- Claim C2 (what the code does at the failing input): a request whose pool
identifier is not a valid CIDR does not return an InvalidPool error — the
parse failure is only logged, and the dereference of the nil subnet that
follows panics before any side call is made. -/
theorem requestAddress_malformed_pool_panics :
    requestAddress envA 1 ⟨"banana", "", []⟩ = (Outcome.panicked, []) ∧
      parseCIDR "banana" = none := by decide

/-- Claim C5: a non-gateway request without an explicit address that
terminates in the Returned state yields an address that had no matching
single-host route in the routing table at its route-check: it is none of the
already-routed destinations. -/
theorem requestAddress_avoids_routed (env : Env) (fuel : Nat)
    (r : RequestAddressRequest) (subnet : IPNet) (s : String)
    (hpool : parseCIDR r.poolID = some subnet)
    (hgw : mapGet r.options "RequestAddressType" ≠ "com.docker.network.gateway")
    (_haddr : r.address = "")
    (hret : (requestAddress env fuel r).fst = Outcome.returned s) :
    ∃ ip, s = ipNetString ⟨some ip, subnet.mask⟩ ∧
      routeListFiltered env.routeTable
        ⟨some ip, ⟨subnet.mask.bits, subnet.mask.bits⟩⟩ = [] ∧
      ∀ rt ∈ env.routeTable,
        rt.dst ≠ some ⟨some ip, ⟨subnet.mask.bits, subnet.mask.bits⟩⟩ := by
  simp only [requestAddress, hpool] at hret
  rw [if_neg hgw] at hret
  rcases hc : candidateLoop env.routeTable env.rand
      ⟨subnet.mask.bits, subnet.mask.bits⟩ fuel (parseIP r.address) 0 with ⟨oip, tr⟩
  rw [hc] at hret
  rcases oip with - | ip
  · exact absurd hret (by simp)
  · have hfree : routeListFiltered env.routeTable
        ⟨some ip, ⟨subnet.mask.bits, subnet.mask.bits⟩⟩ = [] :=
      candidateLoop_result_free env.routeTable env.rand
        ⟨subnet.mask.bits, subnet.mask.bits⟩ fuel (parseIP r.address) 0 ip
        (by rw [hc])

    refine ⟨ip, ?_, hfree, ?_⟩
    · rcases hnr : env.nrBySubnet with ⟨onr, oerr⟩
      rw [hnr] at hret
      rcases onr with - | nr
      · rcases oerr with - | e <;> exact absurd hret (by simp)
      · rcases hch : env.connectHostErr with - | e
        all_goals rw [hch] at hret
        case some => exact absurd hret (by simp)
        rcases hgwr : env.gatewayRes with e | gw
        all_goals rw [hgwr] at hret
        case error => exact absurd hret (by simp)
        rcases hra : env.routeAddErr with - | e
        all_goals rw [hra] at hret
        case some => exact absurd hret (by simp)
        simp only [Outcome.returned.injEq] at hret
        exact hret.symm
    · intro rt hrt
      have hnp := List.filter_eq_nil_iff.mp hfree rt hrt
      simpa using hnp

/-- Claim C5 witness: in the environment holding a route to `10.0.0.5/32`,
the returned address `10.0.0.9/24` matches no routed destination. -/
theorem requestAddress_avoids_routed_witness :
    ∃ ip, "10.0.0.9/24" = ipNetString ⟨some ip, ⟨24, 32⟩⟩ ∧
      routeListFiltered envA.routeTable ⟨some ip, ⟨32, 32⟩⟩ = [] ∧
      ∀ rt ∈ envA.routeTable, rt.dst ≠ some ⟨some ip, ⟨32, 32⟩⟩ :=
  requestAddress_avoids_routed envA 1 autoReq
    ⟨some (ipOf 10 0 0 0), ⟨24, 32⟩⟩ "10.0.0.9/24"
    (by decide) (by decide) rfl (by decide)

/-- Claim C6: a gateway-flagged request answers immediately with the
explicitly supplied address re-masked to the pool's prefix length — the IP
portion is the supplied address unchanged — and performs no routing-table
query, no network resolution, no host attachment and no route
installation (the side-call trace is empty). -/
theorem requestAddress_gateway_shortcut (env : Env) (fuel : Nat)
    (r : RequestAddressRequest) (subnet : IPNet)
    (hpool : parseCIDR r.poolID = some subnet)
    (hgw : mapGet r.options "RequestAddressType" = "com.docker.network.gateway") :
    requestAddress env fuel r =
      (Outcome.returned (ipNetString ⟨parseIP r.address, subnet.mask⟩), []) ∧
    ∀ ip, parseIP r.address = some ip →
      (requestAddress env fuel r).fst =
        Outcome.returned (ipToString ip ++ "/" ++ toString subnet.mask.ones) := by
  have h1 : requestAddress env fuel r =
      (Outcome.returned (ipNetString ⟨parseIP r.address, subnet.mask⟩), []) := by
    simp only [requestAddress, hpool]
    rw [if_pos hgw]
  refine ⟨h1, ?_⟩
  intro ip hip
  rw [h1, hip]
  rfl

/-- Claim C6 witness: the gateway request for `10.0.0.7` in pool
`10.0.0.0/24` returns `10.0.0.7/24` with an empty side-call trace. -/
theorem requestAddress_gateway_shortcut_witness :
    requestAddress envA 1 gwReq = (Outcome.returned "10.0.0.7/24", []) :=
  ((requestAddress_gateway_shortcut envA 1 gwReq
    ⟨some (ipOf 10 0 0 0), ⟨24, 32⟩⟩ (by decide) (by decide)).1).trans (by decide)

/-- Claim C8: `RequestPool` echoes the requested pool unchanged as both the
pool identifier and the pool, returns no error, and leaves all state exactly
as it was, regardless of any prior call history (the state argument). -/
theorem requestPool_pure_echo (w : WorldState) (r : RequestPoolRequest) :
    (requestPool w r).fst = w ∧
    (requestPool w r).snd.fst.poolID = r.pool ∧
    (requestPool w r).snd.fst.pool = r.pool ∧
    (requestPool w r).snd.snd = none :=
  ⟨rfl, rfl, rfl, rfl⟩

/-- Claim C9: `ReleaseAddress` and `ReleasePool` succeed and change nothing:
the routing table (so the released address's host route stays installed),
the network-resource cache and every other piece of driver state are passed
through untouched. -/
theorem release_no_ops (w : WorldState) (p a : String) :
    releaseAddress w p a = (w, none) ∧ releasePool w p = (w, none) ∧
    (releaseAddress w p a).fst.routeTable = w.routeTable ∧
    (releaseAddress w p a).fst.cache = w.cache :=
  ⟨rfl, rfl, rfl, rfl⟩

/-- Claim C10: a gateway-flagged request whose explicit address is empty or
unparseable still succeeds: the nil IP renders as the string literal of a
nil network, which is itself neither a parseable IP nor a parseable CIDR —
no error is returned. -/
theorem requestAddress_gateway_invalid_ip (env : Env) (fuel : Nat)
    (r : RequestAddressRequest) (subnet : IPNet)
    (hpool : parseCIDR r.poolID = some subnet)
    (hgw : mapGet r.options "RequestAddressType" = "com.docker.network.gateway")
    (hbad : parseIP r.address = none) :
    requestAddress env fuel r = (Outcome.returned "<nil>", []) ∧
      parseIP "<nil>" = none ∧ parseCIDR "<nil>" = none := by
  refine ⟨?_, by decide, by decide⟩
  simp only [requestAddress, hpool, hbad]
  rw [if_pos hgw]
  rfl

/-- Claim C10 witness: the gateway request with an empty address returns the
successful response `"<nil>"`. -/
theorem requestAddress_gateway_invalid_ip_witness :
    requestAddress envA 1 gwNilReq = (Outcome.returned "<nil>", []) :=
  (requestAddress_gateway_invalid_ip envA 1 gwNilReq
    ⟨some (ipOf 10 0 0 0), ⟨24, 32⟩⟩ (by decide) (by decide) (by decide)).1

end VxRouter

